import Mathlib

/-!
Verification of the HTML fetch/parse/cache subsystem of the KickBackend
repository against its natural-language specification.

The TypeScript sources are shallowly embedded below.  JavaScript strings
are modelled as lists of character codes (`JStr`), so that the JavaScript
string operations used by the code (`toLowerCase`, `trim`, `includes`,
concatenation, equality) become executable Lean functions on `List Nat`.
`Map` objects are modelled as association lists where `set` prepends and
`get` returns the first (most recent) binding.  Timestamps are integers
(milliseconds), matching `Date.now()` arithmetic.  The cheerio DOM layer
is modelled by recording, for each `div.player_name` node, exactly the
observations the code makes of it: its text, whether a
`div.stadium_container_bg` ancestor exists, the text of the closest
`section` ancestor (if any), and the data of the closest `.sub_child`
ancestor (if any).  The fallible structural parse (`cheerio.load`) is an
`Except` value, mirroring the try/catch structure of the sources.
-/

/-- Model of a JavaScript string: its sequence of character codes. -/
abbrev JStr := List Nat

/-- Embeds a Lean string literal as a `JStr`. -/
def strLit (s : String) : JStr := s.data.map Char.toNat

/-- Model of JavaScript `toLowerCase` on one character code (ASCII range,
the only range exercised by this code base). -/
def lowerCode (c : Nat) : Nat := if 65 ≤ c ∧ c ≤ 90 then c + 32 else c

/-- Model of JavaScript `String.prototype.toLowerCase`. -/
def strToLower (s : JStr) : JStr := s.map lowerCode

/-- Whitespace test used by the model of JavaScript `trim`. -/
def isWS (c : Nat) : Bool := c == 32 || c == 9 || c == 10 || c == 13 || c == 11 || c == 12

/-- Drops leading whitespace codes. -/
def dropWS : JStr → JStr
  | [] => []
  | c :: cs => if isWS c then dropWS cs else c :: cs

/-- Model of JavaScript `String.prototype.trim`: drop leading whitespace,
then drop trailing whitespace (via reversal). -/
def strTrim (s : JStr) : JStr := (dropWS ((dropWS s).reverse)).reverse

/-- Tests whether the first list is an initial segment of the second. -/
def leadsWith : JStr → JStr → Bool
  | [], _ => true
  | _ :: _, [] => false
  | p :: ps, c :: cs => p == c && leadsWith ps cs

/-- Model of JavaScript `String.prototype.includes`: `strIncludes s pat`
is true when `pat` occurs contiguously inside `s`. -/
def strIncludes : JStr → JStr → Bool
  | [], pat => pat.isEmpty
  | c :: cs, pat => leadsWith pat (c :: cs) || strIncludes cs pat

lemma isWS_lowerCode (c : Nat) : isWS (lowerCode c) = isWS c := by
  unfold lowerCode
  split
  · rename_i h
    unfold isWS
    rw [Bool.eq_iff_iff]
    simp only [Bool.or_eq_true, beq_iff_eq]
    omega
  · rfl

lemma dropWS_strToLower (l : JStr) : dropWS (strToLower l) = strToLower (dropWS l) := by
  induction l with
  | nil => rfl
  | cons c cs ih =>
    simp only [strToLower, List.map_cons, dropWS, isWS_lowerCode]
    by_cases h : isWS c = true
    · simp only [h, if_true]
      exact ih
    · simp [eq_false_of_ne_true h, strToLower]

lemma strToLower_reverse (l : JStr) : strToLower l.reverse = (strToLower l).reverse := by
  simp [strToLower, List.map_reverse]

lemma strTrim_strToLower (s : JStr) : strTrim (strToLower s) = strToLower (strTrim s) := by
  unfold strTrim
  rw [dropWS_strToLower, ← strToLower_reverse, dropWS_strToLower, ← strToLower_reverse]

lemma dropWS_head_false : ∀ (l : JStr) (c : Nat) (t : JStr), dropWS l = c :: t → isWS c = false := by
  intro l
  induction l with
  | nil => intro c t h; cases h
  | cons a as ih =>
    intro c t h
    by_cases ha : isWS a = true
    · rw [dropWS, if_pos ha] at h
      exact ih c t h
    · rw [dropWS, if_neg ha] at h
      cases h
      exact eq_false_of_ne_true ha

lemma dropWS_idem (l : JStr) : dropWS (dropWS l) = dropWS l := by
  cases h : dropWS l with
  | nil => rfl
  | cons c t =>
    rw [dropWS, if_neg]
    rw [dropWS_head_false l c t h]
    simp

lemma dropWS_suffix (l : JStr) : ∃ p, l = p ++ dropWS l := by
  induction l with
  | nil => exact ⟨[], rfl⟩
  | cons c cs ih =>
    by_cases h : isWS c = true
    · obtain ⟨p, hp⟩ := ih
      refine ⟨c :: p, ?_⟩
      rw [dropWS, if_pos h, List.cons_append, ← hp]
    · exact ⟨[], by rw [dropWS, if_neg h]; rfl⟩

lemma head?_append_left (x y : JStr) (h : x ≠ []) : (x ++ y).head? = x.head? := by
  cases x with
  | nil => exact absurd rfl h
  | cons a as => rfl

lemma reverse_head?_dropWS (x : JStr) (h : dropWS x ≠ []) :
    (dropWS x).reverse.head? = x.reverse.head? := by
  obtain ⟨p, hp⟩ := dropWS_suffix x
  conv_rhs => rw [hp]
  rw [List.reverse_append, head?_append_left]
  simpa using h

lemma strTrim_idem (l : JStr) : strTrim (strTrim l) = strTrim l := by
  unfold strTrim
  set a := dropWS l with ha
  set b := dropWS a.reverse with hb
  have hstep1 : dropWS b.reverse = b.reverse := by
    cases hc : b.reverse with
    | nil => rfl
    | cons c t =>
      have hbne : b ≠ [] := by
        intro hb0
        rw [hb0] at hc
        cases hc
      have h1 : b.reverse.head? = a.reverse.reverse.head? := by
        rw [hb]
        exact reverse_head?_dropWS a.reverse (by rw [← hb]; exact hbne)
      rw [List.reverse_reverse] at h1
      have h2 : a.head? = some c := by
        rw [← h1, hc]
        rfl
      cases hca : a with
      | nil => rw [hca] at h2; cases h2
      | cons c2 t2 =>
        rw [hca] at h2
        have hc2 : c2 = c := by
          simpa using h2
        have hdl : dropWS l = c2 :: t2 := by rw [← ha]; exact hca
        have hwc : isWS c = false := hc2 ▸ dropWS_head_false l c2 t2 hdl
        rw [dropWS, if_neg (by simp [hwc])]
  rw [hstep1, List.reverse_reverse, hb, dropWS_idem]

lemma strToLower_eq_nil_iff (s : JStr) : strToLower s = [] ↔ s = [] := by
  simp [strToLower]

lemma strTrim_strToLower_strTrim (t : JStr) :
    strTrim (strToLower (strTrim t)) = strToLower (strTrim t) := by
  rw [strTrim_strToLower, strTrim_idem]

/-!
Embedding of src/services/html/playerNameDiffMapping.ts.
-/

/-- Fixed source-to-target alias table (Kickbase name to Ligainsider name),
from PLAYER_NAME_MAPPING. -/
def PLAYER_NAME_MAPPING : List (JStr × JStr) :=
  [(strLit "T. Horn", strLit "Horn"), (strLit "Simons", strLit "Xavi")]

/-- Embedding of getMappedPlayerName: scans the alias table comparing each
source key lowercased against the lowercased, trimmed input; returns the
target on a hit, else the original input unchanged. -/
def getMappedPlayerName (playerName : JStr) : JStr :=
  let lowercaseName := strTrim (strToLower playerName)
  match PLAYER_NAME_MAPPING.find? (fun p => strToLower p.1 == lowercaseName) with
  | some p => p.2
  | none => playerName

/-- Embedding of normalizePlayerName: lowercases and trims the input, then
performs a direct (case-sensitive) property access on the alias table with
that lowercased key; returns the target on a hit, else the normalized name. -/
def normalizePlayerName (playerName : JStr) : JStr :=
  let normalized := strTrim (strToLower playerName)
  match PLAYER_NAME_MAPPING.find? (fun p => p.1 == normalized) with
  | some p => p.2
  | none => normalized

/-- Embedding of isSamePlayer: equality of the two normalized names. -/
def isSamePlayer (name1 name2 : JStr) : Bool :=
  normalizePlayerName name1 == normalizePlayerName name2

/-!
Embedding of the filter and DOM layer (src/services/html/types.ts,
src/services/html/DomFilterService.ts, and the same declarations in
src/services/HtmlParser.ts).
-/

/-- Closed enumeration of the two declared DomFilter variants. -/
inductive FilterType where
  | STARTELF : FilterType
  | GESETZT : FilterType
deriving DecidableEq, Repr

/-- Key component for a filter: the filter type tag, or "none" when no
filter is given (domFilter?.type ?? "none"). -/
def filterTypeStr : Option FilterType → JStr
  | some FilterType.STARTELF => strLit "STARTELF"
  | some FilterType.GESETZT => strLit "GESETZT"
  | none => strLit "none"

/-- Observations the code makes of the closest .sub_child ancestor of a
player node: its css display value (if any) and whether it contains a
.player_no .next_sub element. -/
structure SubChildInfo where
  display : Option JStr
  hasNextSubMarker : Bool
deriving DecidableEq, Repr

/-- Observations the code makes of one div.player_name node: its text
content, whether it sits inside div.stadium_container_bg, the full text of
its closest section ancestor (none when there is no section ancestor), and
its closest .sub_child ancestor data (none when there is none). -/
structure RosterNode where
  text : JStr
  inStadiumContainer : Bool
  sectionText : Option JStr
  subChild : Option SubChildInfo
deriving DecidableEq, Repr

/-- Embedding of DomFilterService.doesPlayerMatchFilter together with the
two filter conditions from types.ts.  No filter: pass.  Otherwise the
closest ancestor for the filter selector is consulted; if absent the node
passes.  STARTELF (selector .sub_child): the ancestor display style must be
block.  GESETZT (selector div.player_name, i.e. the node itself): its
closest .sub_child must not contain a .player_no .next_sub element (absent
.sub_child passes). -/
def doesPlayerMatchFilter (nd : RosterNode) : Option FilterType → Bool
  | none => true
  | some FilterType.STARTELF =>
    match nd.subChild with
    | none => true
    | some sc => sc.display == some (strLit "block")
  | some FilterType.GESETZT =>
    match nd.subChild with
    | none => true
    | some sc => !sc.hasNextSubMarker

/-- The fixed injury/suspension marker terms of the classifier regex. -/
def injuryMarkerTerms : List JStr :=
  [strLit "Verletzt", strLit "Angeschlagen", strLit "Gesperrt", strLit "fehlen"]

/-- Embedding of DomFilterService.isPlayerInjuredOrSuspended: true when a
section ancestor exists and its text matches the case-insensitive regex
alternation of the marker terms. -/
def isPlayerInjuredOrSuspended (nd : RosterNode) : Bool :=
  match nd.sectionText with
  | none => false
  | some t => injuryMarkerTerms.any (fun m => strIncludes (strToLower t) (strToLower m))

/-!
Embedding of the data model (src/model/player.ts PlayerAvailabilityInfo)
and of CacheService (src/services/html/CacheService.ts).
-/

/-- Embedding of PlayerAvailabilityInfo. -/
structure PlayerAvailabilityInfo where
  isLikelyToPlay : Bool
  reason : Option JStr
  lastChecked : Int
deriving DecidableEq, Repr

/-- Embedding of createPlayerStatus. -/
def createPlayerStatus (isAvailable : Bool) (reason : Option JStr) (timestamp : Int) :
    PlayerAvailabilityInfo :=
  { isLikelyToPlay := isAvailable, reason := reason, lastChecked := timestamp }

/-- Embedding of StatusCacheEntry. -/
structure StatusCacheEntry where
  info : PlayerAvailabilityInfo
  timestamp : Int
deriving DecidableEq, Repr

/-- Embedding of HtmlCacheEntry (raw page content plus fetch timestamp). -/
structure HtmlCacheEntry where
  content : JStr
  timestamp : Int
deriving DecidableEq, Repr

/-- The status cache Map, as an association list (most recent binding first). -/
abbrev StatusCache := List (JStr × StatusCacheEntry)

/-- Model of Map.get. -/
def mapGet (m : StatusCache) (k : JStr) : Option StatusCacheEntry :=
  (m.find? (fun p => p.1 == k)).map (fun p => p.2)

/-- Model of Map.set. -/
def mapSet (m : StatusCache) (k : JStr) (v : StatusCacheEntry) : StatusCache :=
  (k, v) :: m

/-- Embedding of CacheService.buildStatusCacheKey: url, mapped lowercased
player name and filter tag joined with a pipe character. -/
def buildStatusCacheKey (url playerName : JStr) (domFilter : Option FilterType) : JStr :=
  let mappedName := getMappedPlayerName playerName
  url ++ strLit "|" ++ strToLower mappedName ++ strLit "|" ++ filterTypeStr domFilter

/-- Embedding of CacheService.getPlayerStatusFromCache: maps the name, builds
the key (which maps again), and applies the staleness policy.  The method
performs no write: its result is only the optional verdict. -/
def getPlayerStatusFromCache (cache : StatusCache) (statusCacheDurationMs now : Int)
    (url playerName : JStr) (domFilter : Option FilterType) (returnStale : Bool) :
    Option PlayerAvailabilityInfo :=
  let mappedName := getMappedPlayerName playerName
  let cacheKey := buildStatusCacheKey url mappedName domFilter
  match mapGet cache cacheKey with
  | none => none
  | some cachedStatus =>
    if now - cachedStatus.timestamp ≥ statusCacheDurationMs then
      if returnStale then some cachedStatus.info else none
    else
      some cachedStatus.info

/-- Embedding of CacheService.cachePlayerStatus: skips empty or blank player
names, otherwise maps the name and stores under the built key (which maps
again). -/
def cachePlayerStatus (cache : StatusCache) (url playerName : JStr)
    (status : PlayerAvailabilityInfo) (filter : Option FilterType) (timestamp : Int) :
    StatusCache :=
  if playerName.isEmpty || strTrim playerName == [] then cache
  else
    let mappedName := getMappedPlayerName playerName
    let cacheKey := buildStatusCacheKey url mappedName filter
    mapSet cache cacheKey { info := status, timestamp := timestamp }

/-!
Embedding of PlayerStatusParser (src/services/html/PlayerStatusParser.ts).
-/

/-- Search names built by parsePlayerStatus: the lowercased raw name, plus
the lowercased mapped name when it differs. -/
def searchNamesFor (playerName : JStr) : List JStr :=
  let mappedName := getMappedPlayerName playerName
  if strToLower mappedName == strToLower playerName then
    [strToLower playerName]
  else
    [strToLower playerName, strToLower mappedName]

/-- Name match test of the scan loop: the node text contains a search name
or is contained in one (substring either direction). -/
def nameMatchesAny (searchNames : List JStr) (divPlayerName : JStr) : Bool :=
  searchNames.any (fun name => strIncludes divPlayerName name || strIncludes name divPlayerName)

/-- The each-loop of parsePlayerStatus: walks the filtered nodes in document
order, skips blank-named nodes and nodes matching no search name, and stops
at the first match. -/
def findFirstMatchingNode (searchNames : List JStr) : List RosterNode → Option RosterNode
  | [] => none
  | nd :: rest =>
    let divPlayerName := strToLower (strTrim nd.text)
    if divPlayerName.isEmpty then findFirstMatchingNode searchNames rest
    else if nameMatchesAny searchNames divPlayerName then some nd
    else findFirstMatchingNode searchNames rest

/-- Classification applied to a matched or preparsed node: unavailable with
the fixed reason when injured or suspended, else available with no reason. -/
def classifyNode (nd : RosterNode) (now : Int) : PlayerAvailabilityInfo :=
  if isPlayerInjuredOrSuspended nd then
    createPlayerStatus false (some (strLit "Verletzung oder Sperre")) now
  else
    createPlayerStatus true none now

/-- Embedding of PlayerStatusParser.parsePlayerStatus.  `html` is the raw
page text and `loadResult` the outcome of the structural parse
(cheerio.load); an error there is recovered by the catch handler, which
returns a degraded verdict.  The quick pre-check runs on the raw text
before the structural parse. -/
def parsePlayerStatus (html : JStr) (loadResult : Except JStr (List RosterNode))
    (playerName : JStr) (domFilter : Option FilterType) (now : Int) :
    PlayerAvailabilityInfo :=
  let searchNames := searchNamesFor playerName
  let foundInHtml := searchNames.any (fun name => strIncludes (strToLower html) name)
  if !foundInHtml then
    createPlayerStatus false (some (strLit "Nicht im Kader")) now
  else
    match loadResult with
    | Except.error errorMessage =>
      createPlayerStatus false (some (strLit "Error: " ++ errorMessage)) now
    | Except.ok nodes =>
      let playerNameDivs := nodes.filter
        (fun nd => nd.inStadiumContainer && doesPlayerMatchFilter nd domFilter)
      match findFirstMatchingNode searchNames playerNameDivs with
      | some nd => classifyNode nd now
      | none => createPlayerStatus false (some (strLit "Nicht im Kader")) now

/-- The filter list considered by preparsePlayers: the given filters plus
undefined for the no-filter case. -/
def allFiltersToCache (domFilters : List FilterType) : List (Option FilterType) :=
  domFilters.map some ++ [none]

/-- One node of the preparsePlayers loop: skip nodes outside the stadium
container and blank names, else classify once per surviving filter variant
and cache each result, counting every cache call. -/
def preparseStep (url : JStr) (now : Int) (domFilters : List FilterType)
    (acc : StatusCache × Nat) (nd : RosterNode) : StatusCache × Nat :=
  if !nd.inStadiumContainer then acc
  else
    let playerName := strToLower (strTrim nd.text)
    if playerName.isEmpty then acc
    else
      (allFiltersToCache domFilters).foldl
        (fun acc2 currentFilter =>
          if currentFilter.isSome && !(doesPlayerMatchFilter nd currentFilter) then acc2
          else
            (cachePlayerStatus acc2.1 url playerName (classifyNode nd now) currentFilter now,
              acc2.2 + 1))
        acc

/-- Embedding of PlayerStatusParser.preparsePlayers: rejects empty HTML,
recovers a structural-parse failure by returning zero (the failure occurs
before any node is processed, so the cache is unchanged), else folds the
per-node step over all nodes with the single timestamp `now` captured at
the start of the pass. -/
def preparsePlayers (cache : StatusCache) (teamUrl html : JStr)
    (loadResult : Except JStr (List RosterNode)) (domFilters : List FilterType)
    (now : Int) : StatusCache × Nat :=
  if html.isEmpty then (cache, 0)
  else
    match loadResult with
    | Except.error _ => (cache, 0)
    | Except.ok nodes => nodes.foldl (preparseStep teamUrl now domFilters) (cache, 0)

/-!
Embedding of the Facade (class HtmlParser in src/services/html/HtmlParser.ts):
fetchAndParsePlayerStatus consults the status cache with returnStale set to
true and returns the fixed sentinel verdict on a miss; it performs no fetch,
no parse and no cache write, which the embedding expresses by returning the
cache state unchanged.
-/

/-- State of the two CacheService maps. -/
structure CacheState where
  htmlCache : List (JStr × HtmlCacheEntry)
  statusCache : StatusCache
deriving DecidableEq, Repr

/-- Embedding of the facade fetchAndParsePlayerStatus. -/
def fetchAndParsePlayerStatus (st : CacheState) (statusCacheDurationMs now : Int)
    (teamUrl playerName : JStr) (domFilter : Option FilterType) :
    PlayerAvailabilityInfo × CacheState :=
  match getPlayerStatusFromCache st.statusCache statusCacheDurationMs now
      teamUrl playerName domFilter true with
  | some cachedStatus => (cachedStatus, st)
  | none =>
    (createPlayerStatus false
      (some (strLit "Information not pre-cached or player not found for filter")) now, st)

/-!
Embedding of the superseded monolithic revision (src/services/HtmlParser.ts,
class HtmlParser): its private buildStatusCacheKey does NOT consult the name
mapping, and its fetchAndParsePlayerStatus looks up the status cache under
that raw-name key, returning stale data unconditionally and the sentinel
verdict on a miss.
-/

/-- Embedding of HtmlParser.buildStatusCacheKey (src/services/HtmlParser.ts):
url, raw lowercased player name (no mapping) and filter tag. -/
def legacyBuildStatusCacheKey (url playerName : JStr) (domFilter : Option FilterType) : JStr :=
  url ++ strLit "|" ++ strToLower playerName ++ strLit "|" ++ filterTypeStr domFilter

/-- Embedding of HtmlParser.fetchAndParsePlayerStatus
(src/services/HtmlParser.ts): status cache lookup under the raw-name key;
an expired entry is returned as stale data, a fresh one as a hit, a miss
yields the sentinel verdict. -/
def legacyFetchAndParsePlayerStatus (statusCache : StatusCache)
    (statusCacheDurationMs now : Int) (teamUrl playerName : JStr)
    (domFilter : Option FilterType) : PlayerAvailabilityInfo :=
  let cacheKey := legacyBuildStatusCacheKey teamUrl playerName domFilter
  match mapGet statusCache cacheKey with
  | some cachedStatus =>
    if now - cachedStatus.timestamp ≥ statusCacheDurationMs then cachedStatus.info
    else cachedStatus.info
  | none =>
    createPlayerStatus false
      (some (strLit "Information not pre-cached or player not found for filter")) now

/-!
Claim-side definitions.  These follow the wording of the spec and of the
claims being checked, to be compared against the embedded source functions
above.
-/

/-- Modelled from the wording of claim C2 / spec 4.6 steps 3 to 5: restrict
to roster nodes inside the stadium container that pass the filter; return
the classification of the first such node (skipping blank-named nodes)
whose trimmed text contains, or is contained by, the canonical or the raw
search name case-insensitively; not-in-squad when no node matches. -/
def claimedParseResult (nodes : List RosterNode) (playerName : JStr)
    (domFilter : Option FilterType) (now : Int) : PlayerAvailabilityInfo :=
  let rawName := strToLower playerName
  let canonicalName := strToLower (getMappedPlayerName playerName)
  match (nodes.filter (fun nd => nd.inStadiumContainer && doesPlayerMatchFilter nd domFilter)).find?
      (fun nd =>
        let t := strToLower (strTrim nd.text)
        !t.isEmpty &&
          (strIncludes t canonicalName || strIncludes canonicalName t ||
            strIncludes t rawName || strIncludes rawName t)) with
  | some nd => classifyNode nd now
  | none => createPlayerStatus false (some (strLit "Nicht im Kader")) now

/-- A node qualifies for bulk preparsing when it is inside the stadium
container and its trimmed lowercased name is non-blank (claim C3). -/
def nodeQualifies (nd : RosterNode) : Bool :=
  nd.inStadiumContainer && !(strToLower (strTrim nd.text)).isEmpty

/-- The filter variants, among the requested ones plus the implicit
no-filter variant, whose filter check the node passes (claim C3). -/
def passingVariants (domFilters : List FilterType) (nd : RosterNode) :
    List (Option FilterType) :=
  (allFiltersToCache domFilters).filter (fun f => doesPlayerMatchFilter nd f)

/-- The verdict-cache upserts contributed by one roster node in one bulk
preparse pass: one per passing variant for a qualifying node, none for a
node outside the container or with a blank name (claim C3). -/
def nodeWrites (url : JStr) (now : Int) (domFilters : List FilterType)
    (nd : RosterNode) : List (JStr × StatusCacheEntry) :=
  if nodeQualifies nd then
    (passingVariants domFilters nd).map (fun f =>
      (buildStatusCacheKey url (getMappedPlayerName (strToLower (strTrim nd.text))) f,
        { info := classifyNode nd now, timestamp := now }))
  else []

/-- All verdict-cache upserts of one bulk preparse pass, in order. -/
def preparseWrites (url : JStr) (now : Int) (domFilters : List FilterType)
    (nodes : List RosterNode) : List (JStr × StatusCacheEntry) :=
  (nodes.map (nodeWrites url now domFilters)).flatten

/-- Applies a list of upserts to a cache in order. -/
def applyWrites (cache : StatusCache) (ws : List (JStr × StatusCacheEntry)) : StatusCache :=
  ws.foldl (fun c kv => mapSet c kv.1 kv.2) cache

/-- Modelled from the wording of claim C7 / spec 4.5: the node has a
nearest enclosing section ancestor whose full text contains one of the
fixed marker terms case-insensitively. -/
def sectionHasMarkerTerm (nd : RosterNode) : Prop :=
  ∃ t, nd.sectionText = some t ∧
    ∃ m ∈ injuryMarkerTerms, strIncludes (strToLower t) (strToLower m) = true

/-!
Supporting lemmas.
-/

lemma getMappedPlayerName_idem (n : JStr) :
    getMappedPlayerName (getMappedPlayerName n) = getMappedPlayerName n := by
  cases h : PLAYER_NAME_MAPPING.find? (fun p => strToLower p.1 == strTrim (strToLower n)) with
  | none => simp [getMappedPlayerName, h]
  | some p =>
    have hp := List.mem_of_find?_eq_some h
    have hcases : p = (strLit "T. Horn", strLit "Horn") ∨ p = (strLit "Simons", strLit "Xavi") := by
      simpa [PLAYER_NAME_MAPPING] using hp
    have hres : getMappedPlayerName n = p.2 := by simp [getMappedPlayerName, h]
    rw [hres]
    rcases hcases with h1 | h1 <;> rw [h1] <;> decide

lemma cachePlayerStatus_nonblank (cache : StatusCache) (url pn : JStr)
    (status : PlayerAvailabilityInfo) (f : Option FilterType) (ts : Int)
    (h1 : pn ≠ []) (h2 : strTrim pn ≠ []) :
    cachePlayerStatus cache url pn status f ts
      = mapSet cache (buildStatusCacheKey url (getMappedPlayerName pn) f)
          { info := status, timestamp := ts } := by
  unfold cachePlayerStatus
  rw [if_neg]
  simp [h1, h2]

lemma preparse_filters_fold (url : JStr) (now : Int) (nd : RosterNode)
    (hne : ¬(strToLower (strTrim nd.text)).isEmpty = true) :
    ∀ (fl : List (Option FilterType)) (c : StatusCache) (k : Nat),
    fl.foldl
      (fun acc2 currentFilter =>
        if currentFilter.isSome && !(doesPlayerMatchFilter nd currentFilter) then acc2
        else
          (cachePlayerStatus acc2.1 url (strToLower (strTrim nd.text)) (classifyNode nd now)
              currentFilter now,
            acc2.2 + 1))
      (c, k)
    = (applyWrites c ((fl.filter (fun f => doesPlayerMatchFilter nd f)).map
          (fun f => (buildStatusCacheKey url
              (getMappedPlayerName (strToLower (strTrim nd.text))) f,
            { info := classifyNode nd now, timestamp := now }))),
        k + (fl.filter (fun f => doesPlayerMatchFilter nd f)).length) := by
  have hpn : (strToLower (strTrim nd.text)) ≠ [] := by
    intro h0
    exact hne (by simp [h0])
  have hpt : strTrim (strToLower (strTrim nd.text)) ≠ [] := by
    rw [strTrim_strToLower_strTrim]
    exact hpn
  intro fl
  induction fl with
  | nil => intro c k; simp [applyWrites]
  | cons f fs ih =>
    intro c k
    by_cases hm : doesPlayerMatchFilter nd f = true
    · have hskip : (f.isSome && !(doesPlayerMatchFilter nd f)) = false := by simp [hm]
      rw [List.foldl_cons]
      simp only [hskip, Bool.false_eq_true, if_false]
      rw [cachePlayerStatus_nonblank _ _ _ _ _ _ hpn hpt]
      rw [ih]
      simp only [List.filter_cons, hm, if_true, List.map_cons]
      rw [Prod.mk.injEq]
      constructor
      · simp [applyWrites]
      · simp only [List.length_cons]
        omega
    · have hfs : f.isSome = true := by
        cases f with
        | none => exact absurd rfl hm
        | some ft => rfl
      have hskip : (f.isSome && !(doesPlayerMatchFilter nd f)) = true := by
        rw [hfs, eq_false_of_ne_true hm]
        rfl
      rw [List.foldl_cons]
      simp only [hskip, if_true]
      rw [ih]
      simp [List.filter_cons, eq_false_of_ne_true hm]

lemma preparseStep_eq (url : JStr) (now : Int) (domFilters : List FilterType)
    (c : StatusCache) (k : Nat) (nd : RosterNode) :
    preparseStep url now domFilters (c, k) nd
      = (applyWrites c (nodeWrites url now domFilters nd),
          k + (nodeWrites url now domFilters nd).length) := by
  by_cases h1 : nd.inStadiumContainer = true
  · by_cases h2 : (strToLower (strTrim nd.text)).isEmpty = true
    · simp [preparseStep, nodeWrites, nodeQualifies, h1, h2, applyWrites]
    · have hq : nodeQualifies nd = true := by
        simp [nodeQualifies, h1, h2]
      simp only [preparseStep, nodeWrites, passingVariants, h1, hq, Bool.not_true,
        Bool.false_eq_true, if_false, if_true]
      rw [eq_false_of_ne_true h2]
      simp only [Bool.false_eq_true, if_false, List.length_map]
      exact preparse_filters_fold url now nd h2 (allFiltersToCache domFilters) c k
  · simp [preparseStep, nodeWrites, nodeQualifies, eq_false_of_ne_true h1, applyWrites]

lemma preparse_foldl (url : JStr) (now : Int) (domFilters : List FilterType) :
    ∀ (nodes : List RosterNode) (c : StatusCache) (k : Nat),
    nodes.foldl (preparseStep url now domFilters) (c, k)
      = (applyWrites c (preparseWrites url now domFilters nodes),
          k + (preparseWrites url now domFilters nodes).length) := by
  intro nodes
  induction nodes with
  | nil => intro c k; simp [preparseWrites, applyWrites]
  | cons nd nds ih =>
    intro c k
    rw [List.foldl_cons, preparseStep_eq, ih]
    have hw : preparseWrites url now domFilters (nd :: nds)
        = nodeWrites url now domFilters nd ++ preparseWrites url now domFilters nds := by
      simp [preparseWrites]
    rw [hw, Prod.mk.injEq]
    constructor
    · simp [applyWrites, List.foldl_append]
    · simp
      omega

lemma findFirstMatchingNode_eq_find? (sns : List JStr) :
    ∀ l : List RosterNode,
    findFirstMatchingNode sns l = l.find? (fun nd =>
      !(strToLower (strTrim nd.text)).isEmpty
        && nameMatchesAny sns (strToLower (strTrim nd.text))) := by
  intro l
  induction l with
  | nil => rfl
  | cons nd rest ih =>
    by_cases h1 : (strToLower (strTrim nd.text)).isEmpty = true
    · simp [findFirstMatchingNode, List.find?_cons, h1, ih]
    · by_cases h2 : nameMatchesAny sns (strToLower (strTrim nd.text)) = true
      · simp [findFirstMatchingNode, List.find?_cons, h1, h2]
      · simp [findFirstMatchingNode, List.find?_cons, h1, h2, ih]

/-!
Theorems for the claims.
-/

/-- Claim C10: getMappedPlayerName is idempotent over the fixed alias table
(no mapping target is itself a mapping source), hence the double
canonicalization performed on the cache read path and on the write path
(mapping the name and then building the key, which maps again) produces the
same key as a single canonicalization. -/
theorem spec_c10_idempotent (n url : JStr) (f : Option FilterType) :
    getMappedPlayerName (getMappedPlayerName n) = getMappedPlayerName n
    ∧ buildStatusCacheKey url (getMappedPlayerName n) f = buildStatusCacheKey url n f := by
  refine ⟨getMappedPlayerName_idem n, ?_⟩
  simp [buildStatusCacheKey, getMappedPlayerName_idem]

/-- Claim C5 (code bug): isSamePlayer should recognize an aliased source
spelling and its target as the same athlete, since both canonicalize to the
target name; but normalizePlayerName indexes the alias table with a
lowercased key against mixed-case table keys, so the lookup never hits and
isSamePlayer (T. Horn) (Horn) evaluates to false, contradicting the
documented mapping behavior and the canonicalization equality. -/
theorem spec_c5_code_bug :
    isSamePlayer (strLit "T. Horn") (strLit "Horn") = false
    ∧ getMappedPlayerName (strLit "T. Horn") = strLit "Horn"
    ∧ getMappedPlayerName (strLit "Horn") = strLit "Horn"
    ∧ normalizePlayerName (strLit "T. Horn") = strLit "t. horn"
    ∧ normalizePlayerName (strLit "Horn") = strLit "horn" := by
  refine ⟨by decide, by decide, by decide, by decide, by decide⟩

/-- Claim C4: getPlayerStatusFromCache returns absent on a missing entry,
the cached verdict while the age is strictly below the configured duration,
and on an expired entry the stale verdict exactly when returnStale is true;
the function performs no write, fetch or parse in any branch. -/
theorem spec_c4_staleness (cache : StatusCache) (statusCacheDurationMs now : Int)
    (url playerName : JStr) (domFilter : Option FilterType) (returnStale : Bool) :
    (mapGet cache (buildStatusCacheKey url (getMappedPlayerName playerName) domFilter) = none →
      getPlayerStatusFromCache cache statusCacheDurationMs now url playerName domFilter
        returnStale = none)
    ∧ (∀ e, mapGet cache (buildStatusCacheKey url (getMappedPlayerName playerName) domFilter)
          = some e →
        now - e.timestamp < statusCacheDurationMs →
        getPlayerStatusFromCache cache statusCacheDurationMs now url playerName domFilter
          returnStale = some e.info)
    ∧ (∀ e, mapGet cache (buildStatusCacheKey url (getMappedPlayerName playerName) domFilter)
          = some e →
        now - e.timestamp ≥ statusCacheDurationMs →
        getPlayerStatusFromCache cache statusCacheDurationMs now url playerName domFilter
          returnStale = (if returnStale then some e.info else none)) := by
  refine ⟨?_, ?_, ?_⟩
  · intro h
    simp [getPlayerStatusFromCache, h]
  · intro e h hlt
    simp only [getPlayerStatusFromCache]
    rw [h]
    simp only []
    rw [if_neg (by omega)]
  · intro e h hge
    simp only [getPlayerStatusFromCache]
    rw [h]
    simp only []
    rw [if_pos (by omega)]

/-- Witness for C4: a concrete expired entry is still returned when
returnStale is true. -/
theorem spec_c4_witness :
    getPlayerStatusFromCache
        [(buildStatusCacheKey (strLit "u") (strLit "Horn") none,
          { info := { isLikelyToPlay := true, reason := none, lastChecked := 0 },
            timestamp := 0 })]
        300000 400000 (strLit "u") (strLit "Horn") none true
      = some { isLikelyToPlay := true, reason := none, lastChecked := 0 } := by
  have h := (spec_c4_staleness
      [(buildStatusCacheKey (strLit "u") (strLit "Horn") none,
        { info := { isLikelyToPlay := true, reason := none, lastChecked := 0 },
          timestamp := 0 })]
      300000 400000 (strLit "u") (strLit "Horn") none true).2.2
      { info := { isLikelyToPlay := true, reason := none, lastChecked := 0 }, timestamp := 0 }
      (by decide) (by decide)
  simpa using h

/-- Claim C6: the facade fetchAndParsePlayerStatus looks up the verdict
cache with returnStale set to true and returns any hit (fresh or stale)
immediately; on a miss it returns the fixed not-pre-cached sentinel verdict
with isLikelyToPlay false; in both cases the cache state is returned
unchanged, and no fetch or parse occurs (the function has no access to the
network or to the parser). -/
theorem spec_c6_facade (st : CacheState) (statusCacheDurationMs now : Int)
    (teamUrl playerName : JStr) (domFilter : Option FilterType) :
    (∀ s, getPlayerStatusFromCache st.statusCache statusCacheDurationMs now teamUrl
        playerName domFilter true = some s →
      fetchAndParsePlayerStatus st statusCacheDurationMs now teamUrl playerName domFilter
        = (s, st))
    ∧ (getPlayerStatusFromCache st.statusCache statusCacheDurationMs now teamUrl
        playerName domFilter true = none →
      fetchAndParsePlayerStatus st statusCacheDurationMs now teamUrl playerName domFilter
        = (createPlayerStatus false
            (some (strLit "Information not pre-cached or player not found for filter")) now,
          st)
      ∧ (createPlayerStatus false
          (some (strLit "Information not pre-cached or player not found for filter"))
          now).isLikelyToPlay = false) := by
  constructor
  · intro s h
    simp [fetchAndParsePlayerStatus, h]
  · intro h
    exact ⟨by simp [fetchAndParsePlayerStatus, h], rfl⟩

/-- Witness for C6: a lookup against empty caches misses and yields the
sentinel verdict with the state unchanged. -/
theorem spec_c6_witness :
    fetchAndParsePlayerStatus { htmlCache := [], statusCache := [] } 300000 0
        (strLit "u") (strLit "Horn") none
      = (createPlayerStatus false
          (some (strLit "Information not pre-cached or player not found for filter")) 0,
        { htmlCache := [], statusCache := [] }) :=
  ((spec_c6_facade { htmlCache := [], statusCache := [] } 300000 0
      (strLit "u") (strLit "Horn") none).2 (by decide)).1

/-- Claim C7: the classifier returns unavailable with the fixed reason
string exactly when the node has a section ancestor whose full text
contains one of the fixed marker terms case-insensitively, and available
with no reason otherwise. -/
theorem spec_c7_classifier (nd : RosterNode) (now : Int) :
    (classifyNode nd now
        = createPlayerStatus false (some (strLit "Verletzung oder Sperre")) now
      ↔ sectionHasMarkerTerm nd)
    ∧ (classifyNode nd now = createPlayerStatus true none now
      ↔ ¬ sectionHasMarkerTerm nd) := by
  have hiff : isPlayerInjuredOrSuspended nd = true ↔ sectionHasMarkerTerm nd := by
    unfold isPlayerInjuredOrSuspended sectionHasMarkerTerm
    cases h : nd.sectionText with
    | none => simp
    | some t => simp [List.any_eq_true]
  constructor
  · constructor
    · intro h
      rw [← hiff]
      cases hinj : isPlayerInjuredOrSuspended nd with
      | false =>
        rw [classifyNode, if_neg (by simp [hinj])] at h
        simp [createPlayerStatus] at h
      | true => rfl
    · intro h
      rw [classifyNode, if_pos (hiff.mpr h)]
  · constructor
    · intro h
      rw [← hiff]
      cases hinj : isPlayerInjuredOrSuspended nd with
      | false => simp
      | true =>
        rw [classifyNode, if_pos hinj] at h
        simp [createPlayerStatus] at h
    · intro h
      rw [classifyNode, if_neg (fun hc => h (hiff.mp hc))]

/-- Witness for C7: a node under a section whose text carries an injury
marker is classified unavailable with the fixed reason. -/
theorem spec_c7_witness :
    classifyNode
        ⟨strLit "X", true, some (strLit "Verletzt: X"), none⟩ 0
      = createPlayerStatus false (some (strLit "Verletzung oder Sperre")) 0 :=
  (spec_c7_classifier
      ⟨strLit "X", true, some (strLit "Verletzt: X"), none⟩ 0).1.mpr
    ⟨strLit "Verletzt: X", rfl, strLit "Verletzt", by decide, by decide⟩

/-- Claim C1 (counterexample): the claim fails on the superseded revision
(src/services/HtmlParser.ts), whose buildStatusCacheKey and
fetchAndParsePlayerStatus use the raw lowercased caller spelling without
the NameMapper: the aliased spelling and its target canonicalize equally,
yet the legacy read path builds different keys for them and resolves them
to different cache entries. -/
theorem spec_c1_counterexample :
    getMappedPlayerName (strLit "T. Horn") = getMappedPlayerName (strLit "Horn")
    ∧ legacyBuildStatusCacheKey (strLit "u") (strLit "T. Horn") none
        ≠ legacyBuildStatusCacheKey (strLit "u") (strLit "Horn") none
    ∧ legacyFetchAndParsePlayerStatus
        [(legacyBuildStatusCacheKey (strLit "u") (strLit "Horn") none,
          ⟨createPlayerStatus true none 0, 0⟩)]
        300000 0 (strLit "u") (strLit "T. Horn") none
      ≠ legacyFetchAndParsePlayerStatus
        [(legacyBuildStatusCacheKey (strLit "u") (strLit "Horn") none,
          ⟨createPlayerStatus true none 0, 0⟩)]
        300000 0 (strLit "u") (strLit "Horn") none :=
  ⟨by decide, by decide, by decide⟩

/-- Claim C1 (amended): in the CacheService implementation every
verdict-cache key is built from the NameMapper-canonicalized lowercased
name, never the raw spelling, so two names with equal lowercased
canonicalizations produce equal keys on the read-path and write-path key
constructions, and cache lookups under them resolve identically. -/
theorem spec_c1_canonical_key (url a b : JStr) (f : Option FilterType)
    (cache : StatusCache) (durationMs now : Int) (returnStale : Bool)
    (h : strToLower (getMappedPlayerName a) = strToLower (getMappedPlayerName b)) :
    buildStatusCacheKey url a f = buildStatusCacheKey url b f
    ∧ buildStatusCacheKey url (getMappedPlayerName a) f
        = buildStatusCacheKey url (getMappedPlayerName b) f
    ∧ getPlayerStatusFromCache cache durationMs now url a f returnStale
        = getPlayerStatusFromCache cache durationMs now url b f returnStale := by
  have h2 : buildStatusCacheKey url (getMappedPlayerName a) f
      = buildStatusCacheKey url (getMappedPlayerName b) f := by
    simp [buildStatusCacheKey, getMappedPlayerName_idem, h]
  refine ⟨by simp [buildStatusCacheKey, h], h2, ?_⟩
  simp [getPlayerStatusFromCache, h2]

/-- Witness for the amended C1: two spellings of the aliased athlete with
equal canonicalizations resolve identically. -/
theorem spec_c1_witness :
    getPlayerStatusFromCache [] 300000 0 (strLit "u") (strLit "T. HORN") none true
      = getPlayerStatusFromCache [] 300000 0 (strLit "u") (strLit "t. horn") none true :=
  (spec_c1_canonical_key (strLit "u") (strLit "T. HORN") (strLit "t. horn") none
      [] 300000 0 true (by decide)).2.2

/-- Claim C9: parsePlayerStatus is total (it never throws and never yields
null): a structural-parse failure is recovered by returning a degraded
verdict with isLikelyToPlay false and a descriptive error reason.  In a
bulk preparse pass the only fallible operation, the structural parse, runs
before any entry is processed, so a parse failure yields zero writes with
the cache unchanged; per-entry processing is total and the writes of a
pass decompose entry by entry, so the entries contributed by any suffix of
the roster are independent of what earlier entries produced. -/
theorem spec_c9_error_recovery (html errorMessage playerName teamUrl : JStr)
    (domFilter : Option FilterType) (now : Int) (cache : StatusCache)
    (domFilters : List FilterType) (l1 l2 : List RosterNode) :
    ((searchNamesFor playerName).any (fun nm => strIncludes (strToLower html) nm) = true →
      parsePlayerStatus html (Except.error errorMessage) playerName domFilter now
        = createPlayerStatus false (some (strLit "Error: " ++ errorMessage)) now)
    ∧ preparsePlayers cache teamUrl html (Except.error errorMessage) domFilters now
        = (cache, 0)
    ∧ preparseWrites teamUrl now domFilters (l1 ++ l2)
        = preparseWrites teamUrl now domFilters l1 ++ preparseWrites teamUrl now domFilters l2 := by
  refine ⟨?_, ?_, ?_⟩
  · intro h
    simp [parsePlayerStatus, h]
  · unfold preparsePlayers
    split <;> rfl
  · simp [preparseWrites]

/-- Witness for C9: a concrete failed structural parse is recovered as a
degraded verdict. -/
theorem spec_c9_witness :
    parsePlayerStatus (strLit "horn") (Except.error (strLit "boom")) (strLit "Horn") none 3
      = createPlayerStatus false (some (strLit "Error: " ++ strLit "boom")) 3 :=
  (spec_c9_error_recovery (strLit "horn") (strLit "boom") (strLit "Horn") (strLit "u")
      none 3 [] [] [] []).1 (by decide)

/-- Claim C3: for non-empty HTML, a bulk preparse pass performs exactly the
per-node, per-passing-variant upserts (one upsert per in-container,
non-blank-named node and passing variant in the requested filters plus the
implicit no-filter variant, and none for out-of-container or blank-named
nodes), returns exactly the number of upserts performed, and stamps every
written entry with the single timestamp captured at the start of the pass,
both on the entry and inside its verdict. -/
theorem spec_c3_preparse (cache : StatusCache) (teamUrl html : JStr)
    (nodes : List RosterNode) (domFilters : List FilterType) (now : Int)
    (hhtml : html.isEmpty = false) :
    preparsePlayers cache teamUrl html (Except.ok nodes) domFilters now
      = (applyWrites cache (preparseWrites teamUrl now domFilters nodes),
          (preparseWrites teamUrl now domFilters nodes).length)
    ∧ (preparseWrites teamUrl now domFilters nodes).length
        = (nodes.map (fun nd =>
            if nodeQualifies nd then (passingVariants domFilters nd).length else 0)).sum
    ∧ (∀ kv ∈ preparseWrites teamUrl now domFilters nodes,
        kv.2.timestamp = now ∧ kv.2.info.lastChecked = now) := by
  refine ⟨?_, ?_, ?_⟩
  · unfold preparsePlayers
    simp only [hhtml, Bool.false_eq_true, if_false]
    rw [preparse_foldl]
    simp
  · unfold preparseWrites
    rw [List.length_flatten, List.map_map]
    congr 1
    apply List.map_congr_left
    intro nd _
    simp only [Function.comp_apply, nodeWrites]
    split
    · simp
    · simp
  · intro kv hkv
    simp only [preparseWrites, List.mem_flatten, List.mem_map] at hkv
    obtain ⟨l2, ⟨nd, hnd, rfl⟩, hkvin⟩ := hkv
    unfold nodeWrites at hkvin
    split at hkvin
    · simp only [List.mem_map] at hkvin
      obtain ⟨fv, hfv, rfl⟩ := hkvin
      refine ⟨rfl, ?_⟩
      unfold classifyNode
      split <;> rfl
    · simp at hkvin

/-- Witness for C3: a concrete pass over one in-container node with no
requested filters performs exactly the one no-filter upsert. -/
theorem spec_c3_witness :
    preparsePlayers [] (strLit "u") (strLit "h")
        (Except.ok [⟨strLit "A", true, none, none⟩]) [] 7
      = (applyWrites [] (preparseWrites (strLit "u") 7 [] [⟨strLit "A", true, none, none⟩]),
          (preparseWrites (strLit "u") 7 [] [⟨strLit "A", true, none, none⟩]).length) :=
  (spec_c3_preparse [] (strLit "u") (strLit "h") [⟨strLit "A", true, none, none⟩] [] 7
      (by decide)).1

/-- Claim C8: every key a bulk preparse pass writes has a filter component
drawn from the requested filter types plus the literal none tag, and every
key the key builder can produce at all has its filter component among the
two declared filter types plus none. -/
theorem spec_c8_filter_keys (url : JStr) (now : Int) (domFilters : List FilterType)
    (nodes : List RosterNode) :
    (∀ kv ∈ preparseWrites url now domFilters nodes,
      ∃ nm c, kv.1 = url ++ strLit "|" ++ nm ++ strLit "|" ++ c
        ∧ c ∈ domFilters.map (fun ft => filterTypeStr (some ft)) ++ [strLit "none"]
        ∧ c ∈ [strLit "STARTELF", strLit "GESETZT", strLit "none"])
    ∧ (∀ u n f, ∃ c, buildStatusCacheKey u n f
        = u ++ strLit "|" ++ strToLower (getMappedPlayerName n) ++ strLit "|" ++ c
        ∧ c ∈ [strLit "STARTELF", strLit "GESETZT", strLit "none"]) := by
  constructor
  · intro kv hkv
    simp only [preparseWrites, List.mem_flatten, List.mem_map] at hkv
    obtain ⟨l2, ⟨nd, hnd, rfl⟩, hkvin⟩ := hkv
    unfold nodeWrites at hkvin
    split at hkvin
    · simp only [List.mem_map] at hkvin
      obtain ⟨fv, hfv, rfl⟩ := hkvin
      have hfv2 : fv ∈ allFiltersToCache domFilters := (List.mem_filter.1 hfv).1
      refine ⟨strToLower (getMappedPlayerName (getMappedPlayerName
          (strToLower (strTrim nd.text)))), filterTypeStr fv, ?_, ?_, ?_⟩
      · simp [buildStatusCacheKey]
      · simp only [allFiltersToCache, List.mem_append, List.mem_map,
          List.mem_singleton] at hfv2
        rcases hfv2 with ⟨ft, hft, rfl⟩ | rfl
        · exact List.mem_append_left _ (List.mem_map_of_mem _ hft)
        · exact List.mem_append_right _ (List.mem_singleton.2 rfl)
      · cases fv with
        | none => simp [filterTypeStr]
        | some ft => cases ft <;> simp [filterTypeStr]
    · simp at hkvin
  · intro u n f
    refine ⟨filterTypeStr f, by simp [buildStatusCacheKey], ?_⟩
    cases f with
    | none => simp [filterTypeStr]
    | some ft => cases ft <;> simp [filterTypeStr]

/-- Witness for C8: the single write of a concrete pass decomposes with a
filter component among the requested variants plus none. -/
theorem spec_c8_witness :
    ∃ nm c,
      (buildStatusCacheKey (strLit "u")
            (getMappedPlayerName (strToLower (strTrim (strLit "A")))) none,
          (⟨classifyNode ⟨strLit "A", true, none, none⟩ 7, 7⟩ : StatusCacheEntry)).1
        = strLit "u" ++ strLit "|" ++ nm ++ strLit "|" ++ c
      ∧ c ∈ ([] : List FilterType).map (fun ft => filterTypeStr (some ft)) ++ [strLit "none"]
      ∧ c ∈ [strLit "STARTELF", strLit "GESETZT", strLit "none"] :=
  (spec_c8_filter_keys (strLit "u") 7 [] [⟨strLit "A", true, none, none⟩]).1
    _ (by decide)

lemma nameMatchesAny_eq_claim (playerName t : JStr) :
    nameMatchesAny (searchNamesFor playerName) t
      = (strIncludes t (strToLower (getMappedPlayerName playerName))
          || strIncludes (strToLower (getMappedPlayerName playerName)) t
          || strIncludes t (strToLower playerName)
          || strIncludes (strToLower playerName) t) := by
  unfold nameMatchesAny searchNamesFor
  by_cases he : (strToLower (getMappedPlayerName playerName) == strToLower playerName) = true
  · have heq : strToLower (getMappedPlayerName playerName) = strToLower playerName :=
      eq_of_beq he
    simp only [he, if_true, List.any_cons, List.any_nil, Bool.or_false, heq]
    cases h1 : strIncludes t (strToLower playerName) <;>
      cases h2 : strIncludes (strToLower playerName) t <;> simp [h1, h2]
  · simp only [he, Bool.false_eq_true, if_false, List.any_cons, List.any_nil, Bool.or_false]
    cases h1 : strIncludes t (strToLower playerName) <;>
      cases h2 : strIncludes (strToLower playerName) t <;>
      cases h3 : strIncludes t (strToLower (getMappedPlayerName playerName)) <;>
      cases h4 : strIncludes (strToLower (getMappedPlayerName playerName)) t <;>
        simp [h1, h2, h3, h4]

/-- Claim C2 (counterexample): the raw-text quick pre-check can return the
not-in-squad verdict even though an in-container node text matches the
search name in the contained-by direction: a truncated roster text is
contained in the requested name, but the raw page text does not contain
the full name, so the scan described by the claim is never reached. -/
theorem spec_c2_counterexample :
    parsePlayerStatus (strLit "<div>Mue</div>")
        (Except.ok [⟨strLit "Mue", true, none, none⟩]) (strLit "Mueller") none 0
      = createPlayerStatus false (some (strLit "Nicht im Kader")) 0
    ∧ claimedParseResult [⟨strLit "Mue", true, none, none⟩] (strLit "Mueller") none 0
      = createPlayerStatus true none 0 :=
  ⟨by decide, by decide⟩

/-- Claim C2 (amended): whenever the raw page text contains the raw or the
canonical search name case-insensitively (the documented pre-check),
parsePlayerStatus considers exactly the in-container, filter-passing
roster nodes and returns the classification of the first one, in document
order, whose trimmed lowercased text contains or is contained by the
canonical or the raw name, skipping blank-named and non-matching nodes;
not-in-squad results when no node matches.  When the pre-check fails the
result is the not-in-squad verdict without any node scan. -/
theorem spec_c2_parse_scan (html : JStr) (nodes : List RosterNode) (playerName : JStr)
    (domFilter : Option FilterType) (now : Int)
    (hpre : (searchNamesFor playerName).any
        (fun nm => strIncludes (strToLower html) nm) = true) :
    parsePlayerStatus html (Except.ok nodes) playerName domFilter now
      = claimedParseResult nodes playerName domFilter now := by
  have hpred : (fun (nd : RosterNode) => !(strToLower (strTrim nd.text)).isEmpty
        && nameMatchesAny (searchNamesFor playerName) (strToLower (strTrim nd.text)))
      = (fun (nd : RosterNode) => !(strToLower (strTrim nd.text)).isEmpty
          && (strIncludes (strToLower (strTrim nd.text))
                (strToLower (getMappedPlayerName playerName))
              || strIncludes (strToLower (getMappedPlayerName playerName))
                  (strToLower (strTrim nd.text))
              || strIncludes (strToLower (strTrim nd.text)) (strToLower playerName)
              || strIncludes (strToLower playerName) (strToLower (strTrim nd.text)))) := by
    funext nd
    rw [nameMatchesAny_eq_claim]
  simp only [parsePlayerStatus, claimedParseResult, hpre, Bool.not_true,
    Bool.false_eq_true, if_false, findFirstMatchingNode_eq_find?, hpred]

/-- Witness for the amended C2: with the pre-check satisfied the parser
result coincides with the described scan. -/
theorem spec_c2_witness :
    parsePlayerStatus (strLit "Mueller") (Except.ok [⟨strLit "Mue", true, none, none⟩])
        (strLit "Mueller") none 0
      = claimedParseResult [⟨strLit "Mue", true, none, none⟩] (strLit "Mueller") none 0 :=
  spec_c2_parse_scan (strLit "Mueller") [⟨strLit "Mue", true, none, none⟩]
    (strLit "Mueller") none 0 (by decide)
